import Mathlib

/-!
Verification of the pointer-nullability analyzer (diagnosis, lattice,
comparison transfer, inference aggregation) against its specification.

The development shallowly embeds the relevant C++ source into Lean:

* `Formula` models the Boolean-formula interface of the SAT facade
  (`make_literal`, `make_atom`, `make_and`, `make_not`, `make_implies`);
  satisfiability is decided by enumerating assignments to the atoms.
* `diagnoseNonnullExpected`, `diagnoseAssignmentLike`,
  `diagnoseArgumentCompatibility`, `diagnoseCallExpr`,
  `checkParmVarDeclWithPointerDefaultArg` and `diagnosePointerNullability`
  embed `pointer_nullability_diagnosis.cc`.
* `PointerNullabilityLattice` embeds `pointer_nullability_lattice.h`.
* `transferNullCheckComparison` embeds the comparison transfer function of
  `pointer_nullability_analysis.cc`.
* The inference aggregator and the iteration driver are modelled from the
  specification (their implementation files are not part of this checkout;
  only their tests and headers are).
-/

/-- Boolean formulas over numbered atoms, as produced through the SAT
facade (`make_atom`, `make_literal`, `make_not`, `make_and`,
`make_implies`). -/
inductive Formula : Type where
  | atom : Nat → Formula
  | tru : Formula
  | fls : Formula
  | neg : Formula → Formula
  | conj : Formula → Formula → Formula
  | impl : Formula → Formula → Formula
deriving DecidableEq, Repr

/-- Evaluation of a formula under a valuation of the atoms. -/
def Formula.eval (v : Nat → Bool) : Formula → Bool
  | .atom n => v n
  | .tru => true
  | .fls => false
  | .neg f => !(f.eval v)
  | .conj f g => f.eval v && g.eval v
  | .impl f g => !(f.eval v) || g.eval v

/-- The atoms occurring in a formula. -/
def Formula.atomList : Formula → List Nat
  | .atom n => [n]
  | .tru => []
  | .fls => []
  | .neg f => f.atomList
  | .conj f g => f.atomList ++ g.atomList
  | .impl f g => f.atomList ++ g.atomList

/-- All valuations that differ from the all-false valuation only on the
given atoms: the finite search space of the SAT solver. -/
def assignmentsFor : List Nat → List (Nat → Bool)
  | [] => [fun _ => false]
  | n :: rest =>
      (assignmentsFor rest).flatMap
        (fun v => [Function.update v n true, Function.update v n false])

/-- Decision procedure for satisfiability: the model of a successful
`solve` call on the SAT facade. -/
def satCheck (f : Formula) : Bool :=
  (assignmentsFor f.atomList).any (fun v => f.eval v)

theorem eval_congr (f : Formula) (v w : Nat → Bool)
    (h : ∀ a ∈ f.atomList, v a = w a) : f.eval v = f.eval w := by
  induction f with
  | atom n => exact h n (by simp [Formula.atomList])
  | tru => rfl
  | fls => rfl
  | neg f ih =>
      simp only [Formula.eval]
      rw [ih (fun a ha => h a (by simpa [Formula.atomList] using ha))]
  | conj f g ihf ihg =>
      simp only [Formula.eval]
      rw [ihf (fun a ha => h a (by simp [Formula.atomList]; exact Or.inl ha)),
        ihg (fun a ha => h a (by simp [Formula.atomList]; exact Or.inr ha))]
  | impl f g ihf ihg =>
      simp only [Formula.eval]
      rw [ihf (fun a ha => h a (by simp [Formula.atomList]; exact Or.inl ha)),
        ihg (fun a ha => h a (by simp [Formula.atomList]; exact Or.inr ha))]

theorem exists_assignment_agreeing (l : List Nat) (v : Nat → Bool) :
    ∃ w ∈ assignmentsFor l, ∀ a ∈ l, w a = v a := by
  induction l with
  | nil => exact ⟨fun _ => false, by simp [assignmentsFor], by simp⟩
  | cons n rest ih =>
      obtain ⟨w, hw, hagree⟩ := ih
      refine ⟨Function.update w n (v n), ?_, ?_⟩
      · simp only [assignmentsFor, List.mem_flatMap]
        refine ⟨w, hw, ?_⟩
        cases hv : v n <;> simp [hv]
      · intro a ha
        rcases List.mem_cons.mp ha with rfl | hmem
        · simp [Function.update]
        · by_cases hna : a = n
          · subst hna; simp [Function.update]
          · simp only [Function.update]
            simp [hna, hagree a hmem]

theorem satCheck_iff (f : Formula) :
    satCheck f = true ↔ ∃ v, f.eval v = true := by
  constructor
  · intro h
    obtain ⟨v, _, hv⟩ := List.any_eq_true.mp h
    exact ⟨v, hv⟩
  · rintro ⟨v, hv⟩
    obtain ⟨w, hw, hagree⟩ := exists_assignment_agreeing f.atomList v
    refine List.any_eq_true.mpr ⟨w, hw, ?_⟩
    rw [eval_congr f w v hagree]
    exact hv

/-- `PointerNullabilityDiagnostic::ErrorCode`. -/
inductive ErrorCode : Type where
  | ExpectedNonnull
  | Untracked
  | AssertFailed
deriving DecidableEq, Repr

/-- `PointerNullabilityDiagnostic::Context`. -/
inductive DiagContext : Type where
  | NullableDereference
  | FunctionArgument
  | ReturnValue
  | Initializer
  | Other
deriving DecidableEq, Repr

/-- `PointerNullabilityDiagnostic`: error code, context, the source range
(modelled as the id of the flagged expression, or a parameter index for
default-argument diagnostics), and an optional parameter name. -/
structure PointerNullabilityDiagnostic : Type where
  code : ErrorCode
  ctx : DiagContext
  range : Nat
  paramName : Option String
deriving DecidableEq, Repr

/-- The flow-sensitive null state of a `PointerValue`: the pair of symbolic
Booleans attached by the analysis.  `isNull` is the flow-sensitive
condition that the pointer is currently null. -/
structure PointerValue : Type where
  fromNullable : Formula
  isNull : Formula
deriving DecidableEq, Repr

/-- The slice of the dataflow `Environment` that the diagnoser consumes:
the flow condition at the CFG element and the pointer value modelled for
each expression (`getPointerValue`), keyed by expression id. -/
structure Env : Type where
  flowCond : Formula
  pointerValue : Nat → Option PointerValue

/-- Modelled from the spec: `isNullable` (defined in
`pointer_nullability.cc`, which is not part of this checkout) asks the
solver, assuming the current flow condition, whether there is a model in
which `is_null` of the value holds. -/
def isNullable (pv : PointerValue) (env : Env) : Bool :=
  satCheck (Formula.conj env.flowCond pv.isNull)

/-- `diagnoseNonnullExpected`: diagnoses whether expression `E` violates
the expectation that it is nonnull. -/
def diagnoseNonnullExpected (E : Nat) (env : Env) (diagCtx : DiagContext)
    (paramName : Option String) : List PointerNullabilityDiagnostic :=
  match env.pointerValue E with
  | some actualVal =>
      if isNullable actualVal env then
        [⟨ErrorCode.ExpectedNonnull, diagCtx, E, paramName⟩]
      else []
  | none => [⟨ErrorCode.Untracked, diagCtx, E, none⟩]

/-- The dereference-like CFG sites dispatched by
`pointerNullabilityDiagnoser()`: `*p` (`diagnoseDereference`, operand
`getSubExpr`), `p[i]` (`diagnoseSubscript`, operand `getBase`), `p->m`
(`diagnoseArrow`, operand `getBase`), and smart-pointer
`operator*`/`operator[]`/`operator->` calls
(`diagnoseSmartPointerDereference`, operand `getArg(0)`). -/
inductive DerefSite : Type where
  | unaryDeref : Nat → DerefSite
  | subscript : Nat → DerefSite
  | arrow : Nat → DerefSite
  | smartPtrOperatorCall : Nat → DerefSite
deriving DecidableEq, Repr

/-- The operand expression whose pointer value is checked at the site. -/
def DerefSite.operand : DerefSite → Nat
  | .unaryDeref e => e
  | .subscript e => e
  | .arrow e => e
  | .smartPtrOperatorCall e => e

/-- The diagnoser's handler for a dereference-like site: every one of the
four handlers forwards its operand to `diagnoseNonnullExpected` with
context `NullableDereference` and no parameter name. -/
def diagnoseDerefSite (s : DerefSite) (env : Env) :
    List PointerNullabilityDiagnostic :=
  match s with
  | .unaryDeref e => diagnoseNonnullExpected e env DiagContext.NullableDereference none
  | .subscript e => diagnoseNonnullExpected e env DiagContext.NullableDereference none
  | .arrow e => diagnoseNonnullExpected e env DiagContext.NullableDereference none
  | .smartPtrOperatorCall e =>
      diagnoseNonnullExpected e env DiagContext.NullableDereference none

theorem diagnoseNonnullExpected_spec (E : Nat) (env : Env) (ctx : DiagContext)
    (pn : Option String) :
    (∀ pv, env.pointerValue E = some pv →
      (((∃ d ∈ diagnoseNonnullExpected E env ctx pn,
            d.code = ErrorCode.ExpectedNonnull) ↔
          ∃ v, env.flowCond.eval v = true ∧ pv.isNull.eval v = true) ∧
        ((∀ v, env.flowCond.eval v = true → pv.isNull.eval v = false) →
          ∀ d ∈ diagnoseNonnullExpected E env ctx pn,
            d.code ≠ ErrorCode.ExpectedNonnull))) ∧
    (env.pointerValue E = none →
      diagnoseNonnullExpected E env ctx pn =
        [⟨ErrorCode.Untracked, ctx, E, none⟩]) := by
  have hsat : ∀ pv : PointerValue,
      isNullable pv env = true ↔
        ∃ v, env.flowCond.eval v = true ∧ pv.isNull.eval v = true := by
    intro pv
    rw [isNullable, satCheck_iff]
    constructor
    · rintro ⟨v, hv⟩
      exact ⟨v, by simpa [Formula.eval] using hv⟩
    · rintro ⟨v, h1, h2⟩
      exact ⟨v, by simp [Formula.eval, h1, h2]⟩
  refine ⟨?_, ?_⟩
  · intro pv hpv
    refine ⟨?_, ?_⟩
    · by_cases hn : isNullable pv env
      · simp only [diagnoseNonnullExpected, hpv, hn, if_true]
        constructor
        · intro _; exact (hsat pv).mp hn
        · intro _; exact ⟨_, List.mem_singleton_self _, rfl⟩
      · simp only [diagnoseNonnullExpected, hpv, hn, if_false]
        constructor
        · rintro ⟨d, hd, _⟩; exact absurd hd (List.not_mem_nil d)
        · intro hex; exact absurd ((hsat pv).mpr hex) hn
    · intro hnot
      have hn : isNullable pv env = false := by
        by_contra hc
        obtain ⟨v, h1, h2⟩ :=
          (hsat pv).mp (Bool.of_not_eq_false hc)
        exact absurd (hnot v h1) (by simp [h2])
      simp only [diagnoseNonnullExpected, hpv, hn, if_false]
      intro d hd
      exact absurd hd (List.not_mem_nil d)
  · intro hnone
    simp only [diagnoseNonnullExpected, hnone]

/-- C1: at every dereference-like CFG site (`*p`, `p[i]`, `p->m`,
smart-pointer `operator*`/`operator[]`/`operator->` calls), the diagnoser
emits `ExpectedNonnull` iff a pointer value is modelled for the operand and
the solver, assuming the current flow condition, finds a model in which
`is_null` of that operand holds; if no pointer value is modelled it emits
`Untracked` instead; and if the solver proves the operand not null, no
`ExpectedNonnull` is produced at that site. -/
theorem derefSite_expectedNonnull_iff_nullable (s : DerefSite) (env : Env) :
    (∀ pv, env.pointerValue s.operand = some pv →
      (((∃ d ∈ diagnoseDerefSite s env,
            d.code = ErrorCode.ExpectedNonnull) ↔
          ∃ v, env.flowCond.eval v = true ∧ pv.isNull.eval v = true) ∧
        ((∀ v, env.flowCond.eval v = true → pv.isNull.eval v = false) →
          ∀ d ∈ diagnoseDerefSite s env,
            d.code ≠ ErrorCode.ExpectedNonnull))) ∧
    (env.pointerValue s.operand = none →
      diagnoseDerefSite s env =
        [⟨ErrorCode.Untracked, DiagContext.NullableDereference,
          s.operand, none⟩]) := by
  cases s with
  | unaryDeref e =>
      exact diagnoseNonnullExpected_spec e env DiagContext.NullableDereference none
  | subscript e =>
      exact diagnoseNonnullExpected_spec e env DiagContext.NullableDereference none
  | arrow e =>
      exact diagnoseNonnullExpected_spec e env DiagContext.NullableDereference none
  | smartPtrOperatorCall e =>
      exact diagnoseNonnullExpected_spec e env DiagContext.NullableDereference none

/-- A concrete environment: flow condition `true`, every expression mapped
to a pointer value whose `is_null` is the free atom `0`. -/
def envWitness : Env :=
  ⟨Formula.tru, fun _ => some ⟨Formula.fls, Formula.atom 0⟩⟩

/-- Witness for C1 at a concrete dereference: the operand's `is_null` is a
free atom, so the solver finds a null model and `ExpectedNonnull` is
emitted. -/
theorem derefSite_expectedNonnull_iff_nullable_witness :
    ∃ d ∈ diagnoseDerefSite (DerefSite.unaryDeref 7) envWitness,
      d.code = ErrorCode.ExpectedNonnull :=
  (((derefSite_expectedNonnull_iff_nullable (DerefSite.unaryDeref 7)
        envWitness).1 ⟨Formula.fls, Formula.atom 0⟩ rfl).1).mpr
    ⟨fun _ => true, rfl, rfl⟩

/-- `NullabilityKind` of a single pointer slot. -/
inductive NullabilityKind : Type where
  | NonNull
  | Nullable
  | Unspecified
deriving DecidableEq, Repr

/-- `TypeNullability`: one nullability kind per pointer occurring in a
type, outer pointer first. -/
def TypeNullability : Type := List NullabilityKind

instance : DecidableEq TypeNullability := by
  unfold TypeNullability; infer_instance

/-- `PointerNullabilityLattice::NonFlowSensitiveState`: the
expression-to-nullability map shared by all lattice elements of one
analysis run (expressions modelled by their ids, already normalised by
`ignoreCFGOmittedNodes`). -/
structure NonFlowSensitiveState : Type where
  exprToNullability : List (Nat × TypeNullability)

/-- `PointerNullabilityLattice::getExprNullability`. -/
def getExprNullability (nfs : NonFlowSensitiveState) (E : Nat) :
    Option TypeNullability :=
  nfs.exprToNullability.lookup E

/-- `PointerNullabilityLattice::insertExprNullabilityIfAbsent`: if the map
already has an entry for `E`, do nothing; otherwise insert the value
computed by `getNullability`.  Returns the (cached or computed)
nullability together with the updated state. -/
def insertExprNullabilityIfAbsent (nfs : NonFlowSensitiveState) (E : Nat)
    (getNullability : Unit → TypeNullability) :
    TypeNullability × NonFlowSensitiveState :=
  match nfs.exprToNullability.lookup E with
  | some v => (v, nfs)
  | none =>
      let v := getNullability ()
      (v, ⟨(E, v) :: nfs.exprToNullability⟩)

/-- `clang::dataflow::LatticeJoinEffect`. -/
inductive LatticeJoinEffect : Type where
  | Unchanged
  | Changed
deriving DecidableEq, Repr

/-- `PointerNullabilityLattice`: the non-flow-sensitive state (shared per
analysis run) and the const-method-return cache, which maps a record
storage location and const method to the pointer value returned from that
method (all modelled by ids). -/
structure PointerNullabilityLattice : Type where
  NFS : NonFlowSensitiveState
  constMethodReturnValues : List ((Nat × Nat) × Nat)

/-- `PointerNullabilityLattice::operator==`. -/
def latticeEq (_l _other : PointerNullabilityLattice) : Bool := true

/-- `PointerNullabilityLattice::join`: if the const-method-return cache is
empty the join reports `Unchanged`; otherwise it conservatively clears the
cache entirely and reports `Changed`. -/
def PointerNullabilityLattice.join (l _other : PointerNullabilityLattice) :
    PointerNullabilityLattice × LatticeJoinEffect :=
  if l.constMethodReturnValues.isEmpty then (l, LatticeJoinEffect.Unchanged)
  else ({ l with constMethodReturnValues := [] }, LatticeJoinEffect.Changed)

/-- C7: after every join the const-method-return cache is empty, and the
join reports `Changed` exactly when the cache was non-empty beforehand. -/
theorem lattice_join_clears_cache (l other : PointerNullabilityLattice) :
    (l.join other).1.constMethodReturnValues = [] ∧
      ((l.join other).2 = LatticeJoinEffect.Changed ↔
        l.constMethodReturnValues ≠ []) := by
  by_cases h : l.constMethodReturnValues.isEmpty
  · have hnil : l.constMethodReturnValues = [] := List.isEmpty_iff.mp h
    simp [PointerNullabilityLattice.join, h, hnil]
  · have hne : l.constMethodReturnValues ≠ [] := fun hc => h (by simp [hc])
    simp [PointerNullabilityLattice.join, h, hne]

/-- C8: the lattice's equality operator returns `true` for two elements
whose const-method-return cache is empty (it is in fact unconditionally
`true`). -/
theorem lattice_eq_when_cache_empty (a b : PointerNullabilityLattice)
    (_h : a.constMethodReturnValues = []) : latticeEq a b = true := rfl

/-- Witness for C8 at two concrete lattice elements with empty caches. -/
theorem lattice_eq_when_cache_empty_witness :
    latticeEq ⟨⟨[]⟩, []⟩ ⟨⟨[(3, [NullabilityKind.NonNull])]⟩, []⟩ = true :=
  lattice_eq_when_cache_empty ⟨⟨[]⟩, []⟩
    ⟨⟨[(3, [NullabilityKind.NonNull])]⟩, []⟩ rfl

/-- C10: the expression-to-nullability map is write-once per expression:
an insertion stores a vector only if none is present (a present entry
leaves the state unchanged and is returned), and after an insertion every
later lookup or insertion attempt for the same expression returns the
first stored vector and leaves the state unchanged. -/
theorem insertExprNullability_write_once (nfs : NonFlowSensitiveState)
    (E : Nat) (g : Unit → TypeNullability) :
    (getExprNullability (insertExprNullabilityIfAbsent nfs E g).2 E =
      some (insertExprNullabilityIfAbsent nfs E g).1) ∧
    (∀ g2, insertExprNullabilityIfAbsent
        (insertExprNullabilityIfAbsent nfs E g).2 E g2 =
      insertExprNullabilityIfAbsent nfs E g) ∧
    (∀ v0, getExprNullability nfs E = some v0 →
      insertExprNullabilityIfAbsent nfs E g = (v0, nfs)) := by
  match hl : nfs.exprToNullability.lookup E with
  | some v =>
      refine ⟨?_, ?_, ?_⟩
      · simp [insertExprNullabilityIfAbsent, getExprNullability, hl]
      · intro g2
        simp [insertExprNullabilityIfAbsent, hl]
      · intro v0 hv0
        have : v = v0 := by
          simpa [getExprNullability, hl] using hv0
        simp [insertExprNullabilityIfAbsent, hl, this]
  | none =>
      refine ⟨?_, ?_, ?_⟩
      · simp [insertExprNullabilityIfAbsent, getExprNullability, hl,
          List.lookup]
      · intro g2
        simp [insertExprNullabilityIfAbsent, hl, List.lookup]
      · intro v0 hv0
        simp [getExprNullability, hl] at hv0

/-- Witness for C10 at a concrete map: inserting at id 0, then attempting
a second insertion with a different generator, returns the first vector
and the unchanged state. -/
theorem insertExprNullability_write_once_witness :
    insertExprNullabilityIfAbsent
        (insertExprNullabilityIfAbsent ⟨[]⟩ 0
          (fun _ => [NullabilityKind.NonNull])).2 0
        (fun _ => [NullabilityKind.Nullable]) =
      insertExprNullabilityIfAbsent ⟨[]⟩ 0
        (fun _ => [NullabilityKind.NonNull]) :=
  (insertExprNullability_write_once ⟨[]⟩ 0
    (fun _ => [NullabilityKind.NonNull])).2.1
    (fun _ => [NullabilityKind.Nullable])

/-- The opcode of a pointer null-check comparison (`BO_EQ` or `BO_NE`);
`transferNullCheckComparison` CHECKs that no other opcode reaches it. -/
inductive CmpOpcode : Type where
  | BO_EQ
  | BO_NE
deriving DecidableEq, Repr

/-- The null state of one comparison operand as returned by
`getPointerNullState`: the pair of symbolic Booleans `(Known, NotNull)`. -/
structure PtrNullState : Type where
  known : Formula
  notNull : Formula
deriving DecidableEq, Repr

/-- The analysis's formula for "the pointer is null": `Known ∧ ¬NotNull`
(the code's `LHSKnownNull`/`RHSKnownNull`). -/
def isNullF (p : PtrNullState) : Formula :=
  Formula.conj p.known (Formula.neg p.notNull)

/-- The analysis's formula for "the pointer is non-null": `Known ∧ NotNull`
(the code's `LHSKnownNotNull`/`RHSKnownNotNull`). -/
def isNotNullF (p : PtrNullState) : Formula :=
  Formula.conj p.known p.notNull

/-- `PointerEQ`: the Boolean standing for "the two pointers compare
equal" — the comparison value itself for `==`, its negation for `!=`. -/
def pointerEqFormula (op : CmpOpcode) (cmp : Formula) : Formula :=
  match op with
  | .BO_EQ => cmp
  | .BO_NE => Formula.neg cmp

/-- `PointerNE`: the Boolean standing for "the two pointers compare
unequal". -/
def pointerNeFormula (op : CmpOpcode) (cmp : Formula) : Formula :=
  match op with
  | .BO_EQ => Formula.neg cmp
  | .BO_NE => cmp

/-- `transferNullCheckComparison`: given the comparison Boolean `cmp`
created by the framework for the `BinaryOperator` and the null states of
the two operands, assert the three null-check implications into the flow
condition (modelled as the list of asserted formulas, appended in
program order). -/
def transferNullCheckComparison (op : CmpOpcode) (cmp : Formula)
    (lhs rhs : PtrNullState) (flowConds : List Formula) : List Formula :=
  let pointerEQ := pointerEqFormula op cmp
  let pointerNE := pointerNeFormula op cmp
  let lhsKnownNotNull := Formula.conj lhs.known lhs.notNull
  let rhsKnownNotNull := Formula.conj rhs.known rhs.notNull
  let lhsKnownNull := Formula.conj lhs.known (Formula.neg lhs.notNull)
  let rhsKnownNull := Formula.conj rhs.known (Formula.neg rhs.notNull)
  ((flowConds ++
      [Formula.impl (Formula.conj lhsKnownNull rhsKnownNull) pointerEQ]) ++
    [Formula.impl (Formula.conj lhsKnownNull rhsKnownNotNull) pointerNE]) ++
  [Formula.impl (Formula.conj lhsKnownNotNull rhsKnownNull) pointerNE]

theorem isNullF_eval_false_of_isNotNullF (p : PtrNullState) (v : Nat → Bool)
    (h : (isNotNullF p).eval v = true) : (isNullF p).eval v = false := by
  simp only [isNotNullF, Formula.eval, Bool.and_eq_true] at h
  simp [isNullF, Formula.eval, h.1, h.2]

theorem isNotNullF_eval_update_fresh (p : PtrNullState) (c : Nat)
    (v : Nat → Bool) (b : Bool) (hk : c ∉ p.known.atomList)
    (hn : c ∉ p.notNull.atomList) (h : (isNotNullF p).eval v = true) :
    (isNotNullF p).eval (Function.update v c b) = true := by
  rw [eval_congr (isNotNullF p) (Function.update v c b) v]
  · exact h
  · intro a ha
    have hane : a ≠ c := by
      rintro rfl
      simp only [isNotNullF, Formula.atomList, List.mem_append] at ha
      exact ha.elim (fun hx => hk hx) (fun hx => hn hx)
    simp [Function.update, hane]

/-- C3: a pointer `==`/`!=` comparison asserts exactly three implications
into the flow condition — both-null implies equal, null vs non-null
implies unequal (both directions) — and nothing else; the asserted
"unequal" Boolean is semantically the negation of the "equal" Boolean;
and since no further constraint is asserted, when the comparison Boolean
is a fresh atom, models with two non-null pointers exist in which they
compare equal and in which they compare unequal. -/
theorem transferNullCheckComparison_constraints (op : CmpOpcode)
    (cmp : Formula) (lhs rhs : PtrNullState) (flowConds : List Formula) :
    (transferNullCheckComparison op cmp lhs rhs flowConds =
      flowConds ++
        [Formula.impl (Formula.conj (isNullF lhs) (isNullF rhs))
            (pointerEqFormula op cmp),
          Formula.impl (Formula.conj (isNullF lhs) (isNotNullF rhs))
            (pointerNeFormula op cmp),
          Formula.impl (Formula.conj (isNotNullF lhs) (isNullF rhs))
            (pointerNeFormula op cmp)]) ∧
    (∀ v, (pointerNeFormula op cmp).eval v =
      !((pointerEqFormula op cmp).eval v)) ∧
    (∀ (c : Nat) (v : Nat → Bool) (b : Bool), cmp = Formula.atom c →
      c ∉ lhs.known.atomList → c ∉ lhs.notNull.atomList →
      c ∉ rhs.known.atomList → c ∉ rhs.notNull.atomList →
      (isNotNullF lhs).eval v = true → (isNotNullF rhs).eval v = true →
      ∃ w : Nat → Bool,
        (isNotNullF lhs).eval w = true ∧ (isNotNullF rhs).eval w = true ∧
        (∀ f ∈ (transferNullCheckComparison op cmp lhs rhs flowConds).drop
            flowConds.length, f.eval w = true) ∧
        (pointerEqFormula op cmp).eval w = b) := by
  refine ⟨?_, ?_, ?_⟩
  · simp [transferNullCheckComparison, isNullF, isNotNullF]
  · intro v
    cases op <;> simp [pointerEqFormula, pointerNeFormula, Formula.eval]
  · intro c v b hc hk1 hn1 hk2 hn2 hl hr
    subst hc
    -- Choose the value of the fresh comparison atom so that the equality
    -- Boolean takes the requested value `b`.
    have key : ∀ bc : Bool,
        (isNotNullF lhs).eval (Function.update v c bc) = true ∧
        (isNotNullF rhs).eval (Function.update v c bc) = true ∧
        (∀ f ∈ (transferNullCheckComparison op (Formula.atom c) lhs rhs
            flowConds).drop flowConds.length,
          f.eval (Function.update v c bc) = true) := by
      intro bc
      have hlw := isNotNullF_eval_update_fresh lhs c v bc hk1 hn1 hl
      have hrw := isNotNullF_eval_update_fresh rhs c v bc hk2 hn2 hr
      have hlnull := isNullF_eval_false_of_isNotNullF lhs _ hlw
      have hrnull := isNullF_eval_false_of_isNotNullF rhs _ hrw
      refine ⟨hlw, hrw, ?_⟩
      intro f hf
      have hdrop : (transferNullCheckComparison op
          (Formula.atom c) lhs rhs flowConds).drop flowConds.length =
          [Formula.impl (Formula.conj (isNullF lhs) (isNullF rhs))
              (pointerEqFormula op (Formula.atom c)),
            Formula.impl (Formula.conj (isNullF lhs) (isNotNullF rhs))
              (pointerNeFormula op (Formula.atom c)),
            Formula.impl (Formula.conj (isNotNullF lhs) (isNullF rhs))
              (pointerNeFormula op (Formula.atom c))] := by
        simp [transferNullCheckComparison, isNullF, isNotNullF,
          List.drop_left]
      rw [hdrop] at hf
      have hcomp1 : Formula.eval (Function.update v c bc) lhs.known = true ∧
          Formula.eval (Function.update v c bc) lhs.notNull = true := by
        simpa [isNotNullF, Formula.eval] using hlw
      have hcomp2 : Formula.eval (Function.update v c bc) rhs.known = true ∧
          Formula.eval (Function.update v c bc) rhs.notNull = true := by
        simpa [isNotNullF, Formula.eval] using hrw
      simp only [List.mem_cons, List.not_mem_nil, or_false] at hf
      rcases hf with rfl | rfl | rfl
      · simp [Formula.eval, isNullF, isNotNullF, hcomp1.1, hcomp1.2,
          hcomp2.1, hcomp2.2]
      · simp [Formula.eval, isNullF, isNotNullF, hcomp1.1, hcomp1.2,
          hcomp2.1, hcomp2.2]
      · simp [Formula.eval, isNullF, isNotNullF, hcomp1.1, hcomp1.2,
          hcomp2.1, hcomp2.2]
    cases op with
    | BO_EQ =>
        obtain ⟨h1, h2, h3⟩ := key b
        exact ⟨Function.update v c b, h1, h2, h3,
          by simp [pointerEqFormula, Formula.eval, Function.update]⟩
    | BO_NE =>
        obtain ⟨h1, h2, h3⟩ := key (!b)
        exact ⟨Function.update v c (!b), h1, h2, h3,
          by simp [pointerEqFormula, Formula.eval, Function.update]⟩

/-- Types, as far as the diagnoser needs them: non-pointer scalars, raw
pointers, and function prototypes (return type, parameter types,
variadic flag). -/
inductive CType : Type where
  | scalar : CType
  | ptr : CType → CType
  | func : CType → List CType → Bool → CType

mutual

/-- `countPointersInType`: the number of entries a type contributes to a
nullability vector (one per pointer, pre-order). -/
def countPointersInType : CType → Nat
  | .scalar => 0
  | .ptr t => 1 + countPointersInType t
  | .func r ps _ => countPointersInType r + countPointersInTypeList ps

/-- Pointer count of a list of types (used for function parameters). -/
def countPointersInTypeList : List CType → Nat
  | [] => 0
  | t :: ts => countPointersInType t + countPointersInTypeList ts

end

/-- `isSupportedPointerType` restricted to the raw-pointer fragment
modelled here. -/
def isSupportedPointerType : CType → Bool
  | .ptr _ => true
  | _ => false

/-- `diagnoseAssignmentLike`: diagnose a conceptual assignment LHS = RHS.
Only the top-level pointer is checked (inner nullability is a TODO in the
source): when the LHS is a supported pointer type whose outer slot is
`NonNull`, the RHS is diagnosed via `diagnoseNonnullExpected`. -/
def diagnoseAssignmentLike (lhsType : CType)
    (lhsNullability : List NullabilityKind) (rhs : Nat) (env : Env)
    (diagCtx : DiagContext) (paramName : Option String) :
    List PointerNullabilityDiagnostic :=
  if isSupportedPointerType lhsType then
    if lhsNullability.headD NullabilityKind.Unspecified =
        NullabilityKind.NonNull then
      diagnoseNonnullExpected rhs env diagCtx paramName
    else []
  else []

/-- The per-argument loop of `diagnoseArgumentCompatibility`: each
parameter consumes `countPointersInType` entries of the callee's
nullability vector; the parameter name is taken from the (best-effort)
`ParmDecls` list, defaulting to the empty string. -/
def diagnoseArgsLoop (env : Env) :
    List CType → List NullabilityKind → List String → List Nat →
    List PointerNullabilityDiagnostic
  | pt :: pts, pnulls, names, a :: args =>
      let len := countPointersInType pt
      diagnoseAssignmentLike pt (pnulls.take len) a env
          DiagContext.FunctionArgument (some (names.headD "")) ++
        diagnoseArgsLoop env pts (pnulls.drop len) names.tail args
  | _, _, _, _ => []

/-- `diagnoseArgumentCompatibility`: C-style varargs cannot be annotated
and are unchecked, so the trailing variadic arguments are dropped before
the per-argument loop. -/
def diagnoseArgumentCompatibility (variadic : Bool) (paramTypes : List CType)
    (paramsNullability : List NullabilityKind) (parmNames : List String)
    (args : List Nat) (env : Env) : List PointerNullabilityDiagnostic :=
  let args2 := if variadic then args.take paramTypes.length else args
  diagnoseArgsLoop env paramTypes paramsNullability parmNames args2

/-- A `CallExpr` as the diagnoser sees it, after the
`__assert_nullability` special case (which requires a direct callee and
therefore never applies to a call through a function pointer): the callee
expression, its type, the arguments, whether the call is a member
operator call (whose first argument is the implicit object argument), and
the best-effort parameter names of the direct callee. -/
structure CallExprModel : Type where
  callee : Nat
  calleeType : CType
  args : List Nat
  isMemberOperatorCall : Bool
  parmNames : List String

/-- The argument-checking tail of `diagnoseCallExpr`: drop the implicit
object argument of a member operator call, skip the return type's
nullability entries, and check the arguments against the parameters. -/
def diagnoseCallArgs (CE : CallExprModel) (calleeNullability : List NullabilityKind)
    (ret : CType) (params : List CType) (variadic : Bool) (env : Env) :
    List PointerNullabilityDiagnostic :=
  let args := if CE.isMemberOperatorCall then CE.args.drop 1 else CE.args
  let paramNullability := calleeNullability.drop (countPointersInType ret)
  diagnoseArgumentCompatibility variadic params paramNullability
    CE.parmNames args env

/-- `diagnoseCallExpr`: if the lattice has no nullability vector for the
callee, nothing is diagnosed.  When the callee is itself a pointer (a
call through a function pointer), the callee is first checked for null;
if that check produces any diagnostic, it is returned and the arguments
are not checked.  Otherwise the pointer is unwrapped (dropping the front
of the nullability vector) and the arguments are checked against the
function prototype, if there is one. -/
def diagnoseCallExpr (CE : CallExprModel)
    (lat : Nat → Option TypeNullability) (env : Env) :
    List PointerNullabilityDiagnostic :=
  match lat CE.callee with
  | none => []
  | some calleeNullability =>
      match CE.calleeType with
      | .ptr pointee =>
          let D := diagnoseNonnullExpected CE.callee env DiagContext.Other none
          if !D.isEmpty then D
          else
            match pointee with
            | .func ret params variadic =>
                diagnoseCallArgs CE (calleeNullability.drop 1) ret params
                  variadic env
            | _ => []
      | .func ret params variadic =>
          diagnoseCallArgs CE calleeNullability ret params variadic env
      | _ => []

theorem diagnoseNonnullExpected_ctx (E : Nat) (env : Env)
    (c : DiagContext) (pn : Option String) :
    ∀ d ∈ diagnoseNonnullExpected E env c pn, d.ctx = c := by
  intro d hd
  unfold diagnoseNonnullExpected at hd
  rcases henv : env.pointerValue E with _ | pv
  · rw [henv] at hd
    simp only [List.mem_singleton] at hd
    subst hd; rfl
  · rw [henv] at hd
    by_cases hn : isNullable pv env
    · simp only [hn, if_true, List.mem_singleton] at hd
      subst hd; rfl
    · simp only [hn, if_false] at hd
      exact absurd hd (List.not_mem_nil d)

/-- C9: for a call through a function pointer (the callee expression has
pointer type), if diagnosing the callee for nullability yields any
diagnostic, that diagnostic list is the whole result — no
argument-compatibility diagnostic is emitted; arguments are checked only
when the callee itself is diagnostic-free. -/
theorem callExpr_callee_diag_suppresses_args (CE : CallExprModel)
    (lat : Nat → Option TypeNullability) (env : Env) (pointee : CType)
    (ns : TypeNullability) (hptr : CE.calleeType = CType.ptr pointee)
    (hlat : lat CE.callee = some ns) :
    (diagnoseNonnullExpected CE.callee env DiagContext.Other none ≠ [] →
      diagnoseCallExpr CE lat env =
        diagnoseNonnullExpected CE.callee env DiagContext.Other none ∧
      ∀ d ∈ diagnoseCallExpr CE lat env,
        d.ctx ≠ DiagContext.FunctionArgument) ∧
    (diagnoseNonnullExpected CE.callee env DiagContext.Other none = [] →
      ∀ ret params variadic, pointee = CType.func ret params variadic →
        diagnoseCallExpr CE lat env =
          diagnoseCallArgs CE (ns.drop 1) ret params variadic env) := by
  constructor
  · intro hne
    have hres : diagnoseCallExpr CE lat env =
        diagnoseNonnullExpected CE.callee env DiagContext.Other none := by
      unfold diagnoseCallExpr
      rw [hlat, hptr]
      have hne2 : (diagnoseNonnullExpected CE.callee env
          DiagContext.Other none).isEmpty = false := by
        rcases hD : diagnoseNonnullExpected CE.callee env
            DiagContext.Other none with _ | ⟨d, ds⟩
        · exact absurd hD hne
        · rfl
      simp [hne2]
    refine ⟨hres, ?_⟩
    intro d hd
    rw [hres] at hd
    rw [diagnoseNonnullExpected_ctx CE.callee env DiagContext.Other none d hd]
    intro hc
    exact DiagContext.noConfusion hc
  · intro hempty ret params variadic hfn
    unfold diagnoseCallExpr
    rw [hlat, hptr, hfn]
    simp [hempty]

/-- Witness for C9: a call through a nullable function pointer (the
callee's `is_null` is a free atom) whose single argument would otherwise
be flagged; only the callee diagnostic is produced. -/
theorem callExpr_callee_diag_suppresses_args_witness :
    diagnoseCallExpr
        ⟨9, CType.ptr (CType.func CType.scalar [CType.ptr CType.scalar] false),
          [4], false, ["p"]⟩
        (fun _ => some [NullabilityKind.Unspecified, NullabilityKind.NonNull])
        envWitness =
      diagnoseNonnullExpected 9 envWitness DiagContext.Other none :=
  ((callExpr_callee_diag_suppresses_args
      ⟨9, CType.ptr (CType.func CType.scalar [CType.ptr CType.scalar] false),
        [4], false, ["p"]⟩
      (fun _ => some [NullabilityKind.Unspecified, NullabilityKind.NonNull])
      envWitness
      (CType.func CType.scalar [CType.ptr CType.scalar] false)
      [NullabilityKind.Unspecified, NullabilityKind.NonNull]
      rfl rfl).1 (by simp [diagnoseNonnullExpected, envWitness, isNullable,
        satCheck, assignmentsFor, Formula.atomList, Formula.eval])).1

/-- The default-argument initializer of a parameter, as inspected by
`shouldDiagnoseExpectedNonnullDefaultArgValue`: whether it is a
null-pointer constant, whether its type is dependent, its type, the
nullability vector of its type, and its expression id (the diagnostic's
source range). -/
structure DefaultArgModel : Type where
  isNullPointerConstant : Bool
  typeIsDependent : Bool
  argType : CType
  typeNullability : TypeNullability
  exprId : Nat

/-- A `ParmVarDecl`: whether its type is dependent, the nullability
vector of its declared type (`getTypeNullability(Parm, Defaults)`), its
default argument if any, and its name. -/
structure ParmVarDeclModel : Type where
  typeIsDependent : Bool
  declNullability : TypeNullability
  defaultArg : Option DefaultArgModel
  name : String

/-- `shouldDiagnoseExpectedNonnullDefaultArgValue`: a default value is
flagged when it is a null-pointer constant, or when its type is a
non-dependent supported pointer type whose outer nullability is
`Nullable`. -/
def shouldDiagnoseExpectedNonnullDefaultArgValue (p : ParmVarDeclModel) :
    Bool :=
  match p.defaultArg with
  | none => false
  | some init =>
      if init.isNullPointerConstant then true
      else if init.typeIsDependent || !isSupportedPointerType init.argType
        then false
      else
        match init.typeNullability with
        | k :: _ => k = NullabilityKind.Nullable
        | [] => false

/-- `checkParmVarDeclWithPointerDefaultArg`: for a non-dependent
parameter whose declared outer nullability is `NonNull` and whose default
argument should be diagnosed, emit one `ExpectedNonnull` diagnostic with
`Initializer` context on the default value. -/
def checkParmVarDeclWithPointerDefaultArg (p : ParmVarDeclModel) :
    List PointerNullabilityDiagnostic :=
  if p.typeIsDependent then []
  else if p.declNullability.headD NullabilityKind.Unspecified ≠
      NullabilityKind.NonNull then []
  else
    match p.defaultArg with
    | none => []
    | some dv =>
        if shouldDiagnoseExpectedNonnullDefaultArgValue p then
          [⟨ErrorCode.ExpectedNonnull, DiagContext.Initializer, dv.exprId,
            some p.name⟩]
        else []

/-- A `FunctionDecl` as `diagnosePointerNullability` inspects it:
templatedness, parameters, and whether this declaration has a body. -/
structure FuncDeclModel : Type where
  isTemplated : Bool
  params : List ParmVarDeclModel
  hasBody : Bool

/-- `MaxSATIterations` in `diagnosePointerNullability`. -/
def maxSATIterations : Nat := 2000000

/-- `MaxBlockVisits` in `diagnosePointerNullability`. -/
def maxBlockVisits : Nat := 20000

/-- The recoverable per-function failures surfaced by
`diagnosePointerNullability`: a CFG construction error, or an
`Interrupted` error (solver or block-visit budget exhausted). -/
inductive AnalysisError : Type where
  | cfgConstructionFailed
  | interrupted
deriving DecidableEq, Repr

/-- Modelled from the spec: the outcome of the external collaborators of
one analysis run — whether `AdornedCFG::build` succeeds, how many block
visits the dataflow fixpoint needs, how many iterations the
`WatchedLiteralsSolver` needs (`reachedLimit()` is true when this exceeds
the configured budget), and the diagnostics the CFG pass would collect. -/
structure AnalysisRun : Type where
  cfgBuildSucceeds : Bool
  blockVisitsNeeded : Nat
  satIterationsNeeded : Nat
  bodyDiagnostics : List PointerNullabilityDiagnostic

/-- `diagnosePointerNullability`, the per-function entry point.  Mirrors
the source exactly: templated functions are skipped; default-argument
diagnostics are collected into `Diags`, returned when the declaration has
no body; with a body, the CFG is built (propagating its error), the
fixpoint is run with `MaxBlockVisits` (exceeding it is an `Interrupted`
error, per the framework contract), the solver budget is checked, and the
CFG pass's fresh `Diagnostics` vector is returned. -/
def diagnosePointerNullability (f : FuncDeclModel) (run : AnalysisRun) :
    Except AnalysisError (List PointerNullabilityDiagnostic) :=
  if f.isTemplated then Except.ok []
  else
    let diags := f.params.flatMap checkParmVarDeclWithPointerDefaultArg
    if !f.hasBody then Except.ok diags
    else if !run.cfgBuildSucceeds then
      Except.error AnalysisError.cfgConstructionFailed
    else if maxBlockVisits < run.blockVisitsNeeded then
      Except.error AnalysisError.interrupted
    else if maxSATIterations < run.satIterationsNeeded then
      Except.error AnalysisError.interrupted
    else Except.ok run.bodyDiagnostics

/-- C4: the entry point configures the SAT solver with a maximum
iteration count of 2,000,000 and the dataflow fixpoint with a maximum
block-visit count of 20,000, and whenever the analysis actually runs and
either limit is exceeded, it returns a recoverable `Interrupted` error
rather than diagnostics. -/
theorem diagnosePointerNullability_limits (f : FuncDeclModel)
    (run : AnalysisRun) (h1 : f.isTemplated = false) (h2 : f.hasBody = true)
    (h3 : run.cfgBuildSucceeds = true)
    (h4 : maxBlockVisits < run.blockVisitsNeeded ∨
      maxSATIterations < run.satIterationsNeeded) :
    diagnosePointerNullability f run =
        Except.error AnalysisError.interrupted ∧
      maxSATIterations = 2000000 ∧ maxBlockVisits = 20000 := by
  refine ⟨?_, rfl, rfl⟩
  unfold diagnosePointerNullability
  rcases h4 with h4 | h4
  · simp [h1, h2, h3, h4]
  · by_cases hb : maxBlockVisits < run.blockVisitsNeeded
    · simp [h1, h2, h3, hb]
    · simp [h1, h2, h3, hb, h4]

/-- Witness for C4: a non-templated function with a body whose fixpoint
needs 20,001 block visits is reported as `Interrupted`. -/
theorem diagnosePointerNullability_limits_witness :
    diagnosePointerNullability ⟨false, [], true⟩ ⟨true, 20001, 0, []⟩ =
        Except.error AnalysisError.interrupted ∧
      maxSATIterations = 2000000 ∧ maxBlockVisits = 20000 :=
  diagnosePointerNullability_limits ⟨false, [], true⟩ ⟨true, 20001, 0, []⟩
    rfl rfl rfl (Or.inl (by decide))

/-- A parameter whose declared outer nullability is `NonNull` but whose
default argument is the null-pointer constant (expression id 3). -/
def parmNonnullWithNullDefault : ParmVarDeclModel :=
  ⟨false, [NullabilityKind.NonNull], some ⟨true, false, CType.ptr CType.scalar,
    [NullabilityKind.Nullable], 3⟩, "p"⟩

/-- C6 (code bug): `checkParmVarDeclWithPointerDefaultArg` does emit
exactly one `ExpectedNonnull` diagnostic for a `NonNull` parameter with a
null default argument, and on a declaration without a body the entry
point returns it; but on the declaration with a body the entry point
discards the default-argument diagnostics (it returns the fresh
`Diagnostics` vector of the CFG pass, not `Diags`), contradicting the
code's own comment that the diagnostic is produced exactly once per
invalid default-argument declaration. -/
theorem defaultArg_diag_dropped_for_bodied_decl :
    checkParmVarDeclWithPointerDefaultArg parmNonnullWithNullDefault =
        [⟨ErrorCode.ExpectedNonnull, DiagContext.Initializer, 3, some "p"⟩] ∧
      diagnosePointerNullability ⟨false, [parmNonnullWithNullDefault], false⟩
          ⟨true, 0, 0, []⟩ =
        Except.ok
          [⟨ErrorCode.ExpectedNonnull, DiagContext.Initializer, 3, some "p"⟩] ∧
      diagnosePointerNullability ⟨false, [parmNonnullWithNullDefault], true⟩
          ⟨true, 0, 0, []⟩ =
        Except.ok [] := by
  refine ⟨rfl, rfl, rfl⟩

/-- The closed set of evidence kinds (`Nonnull`, `Nullable`, `Unknown`
are the pre-existing-annotation kinds). -/
inductive EvidenceKind : Type where
  | UncheckedDereference
  | Nullable
  | Nonnull
  | Unknown
  | NullableArgument
  | NonnullArgument
  | UnknownArgument
  | NullableReturn
  | NonnullReturn
  | UnknownReturn
  | AssignedFromNullable
  | AssignedFromNonnull
  | AbortIfNull
  | ArithmeticOrArraySubscript
  | GcConstructorNullable
  | VirtualMethodConsistency
deriving DecidableEq, Repr

/-- A slot's inference verdict. -/
inductive InferredNullability : Type where
  | Unknown
  | Nonnull
  | Nullable
deriving DecidableEq, Repr

/-- Modelled from the spec: the strength ranking
`UncheckedDereference > NullableArgument > annotation > AbortIfNull >
weak hints` used by the aggregator (whose implementation is not part of
this checkout; only its tests are).  Observed nullable flows
(`NullableReturn`, `AssignedFromNullable`) rank with `NullableArgument`,
as fixed by `InferTUVirtualMethodsTest.Conflict`. -/
def evidenceRank : EvidenceKind → Nat
  | .UncheckedDereference => 4
  | .NullableArgument => 3
  | .NullableReturn => 3
  | .AssignedFromNullable => 3
  | .Nonnull => 2
  | .Nullable => 2
  | .AbortIfNull => 1
  | _ => 0

/-- Modelled from the spec: strong evidence requiring `Nonnull` — an
unchecked dereference, a pre-existing `Nonnull` annotation, or a
`CHECK`-macro abort. -/
def isStrongNonnull : EvidenceKind → Bool
  | .UncheckedDereference => true
  | .Nonnull => true
  | .AbortIfNull => true
  | _ => false

/-- Modelled from the spec: strong evidence requiring `Nullable` — a
nullable argument, return or assignment flow, or a pre-existing
`Nullable` annotation. -/
def isStrongNullable : EvidenceKind → Bool
  | .NullableArgument => true
  | .NullableReturn => true
  | .AssignedFromNullable => true
  | .Nullable => true
  | _ => false

/-- Modelled from the spec: weak hints of `Nullable` (default member
initializers such as `int* p = nullptr;`). -/
def isWeakNullableHint : EvidenceKind → Bool
  | .GcConstructorNullable => true
  | _ => false

/-- The largest strength rank present in a bag. -/
def maxRank (l : List EvidenceKind) : Nat :=
  l.foldr (fun k acc => max (evidenceRank k) acc) 0

/-- Modelled from the spec: the per-slot aggregator.  With strong
evidence in both directions the verdict is the direction of strictly
larger rank, with the conflict flag set; equally-ranked conflicting
strong evidence (e.g. two conflicting annotations) yields `Unknown`
with the conflict flag set, as fixed by `InferTUTest.AnnotationsConflict`.
Without conflict: any strong `Nonnull` evidence gives `Nonnull`, any
strong `Nullable` evidence gives `Nullable`, only weak hints give
`Nullable`, and otherwise the verdict is `Unknown`. -/
def aggregateSlot (bag : List EvidenceKind) : InferredNullability × Bool :=
  let sn := bag.filter isStrongNonnull
  let su := bag.filter isStrongNullable
  if sn.isEmpty then
    if su.isEmpty then
      if bag.any isWeakNullableHint then (InferredNullability.Nullable, false)
      else (InferredNullability.Unknown, false)
    else (InferredNullability.Nullable, false)
  else if su.isEmpty then (InferredNullability.Nonnull, false)
  else if maxRank su < maxRank sn then (InferredNullability.Nonnull, true)
  else if maxRank sn < maxRank su then (InferredNullability.Nullable, true)
  else (InferredNullability.Unknown, true)

/-- Counterexample to C2 as stated: a slot carrying both a `Nonnull` and
a `Nullable` pre-existing annotation has strong evidence in both
directions, yet the verdict is `Unknown` (tied ranks; the conflict flag
is set) — matching `InferTUTest.AnnotationsConflict`, which expects
verdict `UNKNOWN` for exactly this input, and refuting "the verdict is
never Unknown in this case". -/
theorem aggregateSlot_annotation_conflict_is_unknown :
    isStrongNonnull EvidenceKind.Nonnull = true ∧
      isStrongNullable EvidenceKind.Nullable = true ∧
      aggregateSlot [EvidenceKind.Nonnull, EvidenceKind.Nullable] =
        (InferredNullability.Unknown, true) := by
  refine ⟨rfl, rfl, ?_⟩
  rfl

/-- C2 (amended): for every slot whose evidence bag contains strong
evidence requiring `Nonnull` and strong evidence requiring `Nullable`,
the conflict flag is set, and the verdict is the direction whose strong
evidence ranks strictly higher
(`UncheckedDereference > NullableArgument > annotation > AbortIfNull`);
when the two directions' best ranks tie (e.g. conflicting annotations)
the verdict is `Unknown`. -/
theorem aggregateSlot_conflict_verdict (bag : List EvidenceKind)
    (hn : ∃ k ∈ bag, isStrongNonnull k = true)
    (hu : ∃ k ∈ bag, isStrongNullable k = true) :
    (aggregateSlot bag).2 = true ∧
      (maxRank (bag.filter isStrongNullable) <
          maxRank (bag.filter isStrongNonnull) →
        (aggregateSlot bag).1 = InferredNullability.Nonnull) ∧
      (maxRank (bag.filter isStrongNonnull) <
          maxRank (bag.filter isStrongNullable) →
        (aggregateSlot bag).1 = InferredNullability.Nullable) ∧
      (maxRank (bag.filter isStrongNonnull) =
          maxRank (bag.filter isStrongNullable) →
        (aggregateSlot bag).1 = InferredNullability.Unknown) := by
  have hsn : (bag.filter isStrongNonnull).isEmpty = false := by
    obtain ⟨k, hk, hpk⟩ := hn
    have hmem : k ∈ bag.filter isStrongNonnull :=
      List.mem_filter.mpr ⟨hk, hpk⟩
    rcases hflt : bag.filter isStrongNonnull with _ | _
    · rw [hflt] at hmem; exact absurd hmem (List.not_mem_nil k)
    · rfl
  have hsu : (bag.filter isStrongNullable).isEmpty = false := by
    obtain ⟨k, hk, hpk⟩ := hu
    have hmem : k ∈ bag.filter isStrongNullable :=
      List.mem_filter.mpr ⟨hk, hpk⟩
    rcases hflt : bag.filter isStrongNullable with _ | _
    · rw [hflt] at hmem; exact absurd hmem (List.not_mem_nil k)
    · rfl
  by_cases h1 : maxRank (bag.filter isStrongNullable) <
      maxRank (bag.filter isStrongNonnull)
  · have heq : aggregateSlot bag = (InferredNullability.Nonnull, true) := by
      unfold aggregateSlot
      simp only [hsn, hsu, Bool.false_eq_true, if_false]
      rw [if_pos h1]
    exact ⟨by rw [heq], fun _ => by rw [heq],
      fun h2 => absurd (Nat.lt_trans h1 h2) (Nat.lt_irrefl _),
      fun h2 => absurd h1 (by omega)⟩
  · by_cases h2 : maxRank (bag.filter isStrongNonnull) <
        maxRank (bag.filter isStrongNullable)
    · have heq : aggregateSlot bag = (InferredNullability.Nullable, true) := by
        unfold aggregateSlot
        simp only [hsn, hsu, Bool.false_eq_true, if_false]
        rw [if_neg h1, if_pos h2]
      exact ⟨by rw [heq], fun h1x => absurd h1x h1, fun _ => by rw [heq],
        fun heq2 => absurd h2 (by omega)⟩
    · have heq : aggregateSlot bag = (InferredNullability.Unknown, true) := by
        unfold aggregateSlot
        simp only [hsn, hsu, Bool.false_eq_true, if_false]
        rw [if_neg h1, if_neg h2]
      exact ⟨by rw [heq], fun h1x => absurd h1x h1,
        fun h2x => absurd h2x h2, fun _ => by rw [heq]⟩

/-- Witness for C2 (amended) at a concrete bag: an unchecked dereference
outranks a nullable argument, so the verdict is `Nonnull` with the
conflict flag set — matching `InferTUVirtualMethodsTest.Conflict`. -/
theorem aggregateSlot_conflict_verdict_witness :
    (aggregateSlot [EvidenceKind.UncheckedDereference,
        EvidenceKind.NullableArgument]).2 = true ∧
      (aggregateSlot [EvidenceKind.UncheckedDereference,
        EvidenceKind.NullableArgument]).1 = InferredNullability.Nonnull :=
  have h := aggregateSlot_conflict_verdict
    [EvidenceKind.UncheckedDereference, EvidenceKind.NullableArgument]
    ⟨EvidenceKind.UncheckedDereference, by decide, rfl⟩
    ⟨EvidenceKind.NullableArgument, by decide, rfl⟩
  ⟨h.1, h.2.1 (by decide)⟩

/-- The strengthening order on verdicts: `Unknown` may strengthen to
anything; `Nonnull` and `Nullable` are final. -/
def vle : InferredNullability → InferredNullability → Bool
  | .Unknown, _ => true
  | .Nonnull, .Nonnull => true
  | .Nullable, .Nullable => true
  | _, _ => false

theorem vle_refl (a : InferredNullability) : vle a a = true := by
  cases a <;> rfl

theorem vle_trans (a b c : InferredNullability) (h1 : vle a b = true)
    (h2 : vle b c = true) : vle a c = true := by
  cases a <;> cases b <;> cases c <;> simp_all [vle]

theorem vle_eq_of_ne_unknown (a b : InferredNullability)
    (ha : a ≠ InferredNullability.Unknown) (h : vle a b = true) : b = a := by
  cases a <;> cases b <;> simp_all [vle]

/-- Modelled from the spec: one inference iteration re-analyzes the TU
with the previous verdicts installed as overrides; `analyze` maps the
installed per-slot overrides to the next per-slot verdicts. -/
def iterateFrom
    (analyze : (Nat → InferredNullability) → Nat → InferredNullability)
    (s : Nat → InferredNullability) : Nat → Nat → InferredNullability
  | 0 => s
  | k + 1 => analyze (iterateFrom analyze s k)

/-- Modelled from the spec: the verdicts after `k` rounds of `infer_tu`,
starting from no overrides (all slots `Unknown`). -/
def inferTUVerdicts
    (analyze : (Nat → InferredNullability) → Nat → InferredNullability)
    (k : Nat) : Nat → InferredNullability :=
  iterateFrom analyze (fun _ => InferredNullability.Unknown) k

/-- C5: if one analysis round is monotone in the installed overrides (the
spec's "additional overrides only remove ambiguity"), then across
increasing iteration counts each slot's verdict forms a chain in the
strengthening order — it can only strengthen, a non-`Unknown` verdict
persists unchanged (no oscillation between `Nonnull` and `Nullable`) —
and once installed overrides are a fixed point, re-running the analysis
any number of times leaves every slot's verdict unchanged. -/
theorem inferTU_verdicts_monotone
    (analyze : (Nat → InferredNullability) → Nat → InferredNullability)
    (hmono : ∀ s t, (∀ i, vle (s i) (t i) = true) →
      ∀ i, vle (analyze s i) (analyze t i) = true) :
    (∀ k i, vle (inferTUVerdicts analyze k i)
      (inferTUVerdicts analyze (k + 1) i) = true) ∧
    (∀ j k i, j ≤ k →
      inferTUVerdicts analyze j i ≠ InferredNullability.Unknown →
      inferTUVerdicts analyze k i = inferTUVerdicts analyze j i) ∧
    (∀ s, (∀ i, analyze s i = s i) → ∀ k i, iterateFrom analyze s k i = s i) := by
  have hchain : ∀ k i, vle (inferTUVerdicts analyze k i)
      (inferTUVerdicts analyze (k + 1) i) = true := by
    intro k
    induction k with
    | zero => intro i; rfl
    | succ k ih => exact hmono _ _ ih
  have hle : ∀ j k, j ≤ k → ∀ i, vle (inferTUVerdicts analyze j i)
      (inferTUVerdicts analyze k i) = true := by
    intro j k hjk
    induction k with
    | zero =>
        intro i
        have : j = 0 := Nat.le_zero.mp hjk
        subst this; exact vle_refl _
    | succ k ih =>
        intro i
        rcases Nat.lt_or_ge j (k + 1) with hlt | hge
        · have hjk2 : j ≤ k := Nat.lt_succ_iff.mp hlt
          exact vle_trans _ _ _ (ih hjk2 i) (hchain k i)
        · have : j = k + 1 := Nat.le_antisymm hjk hge
          subst this; exact vle_refl _
  refine ⟨hchain, ?_, ?_⟩
  · intro j k i hjk hne
    exact vle_eq_of_ne_unknown _ _ hne (hle j k hjk i)
  · intro s hs k
    induction k with
    | zero => intro i; rfl
    | succ k ih =>
        intro i
        have hfun : iterateFrom analyze s k = s := funext ih
        show analyze (iterateFrom analyze s k) i = s i
        rw [hfun]
        exact hs i

/-- Witness for C5: for the (monotone) constant analysis that reports
every slot `Nonnull`, the verdict of iteration 1 persists unchanged
through iteration 5. -/
theorem inferTU_verdicts_monotone_witness :
    inferTUVerdicts (fun _ _ => InferredNullability.Nonnull) 5 0 =
      inferTUVerdicts (fun _ _ => InferredNullability.Nonnull) 1 0 :=
  (inferTU_verdicts_monotone (fun _ _ => InferredNullability.Nonnull)
    (fun _ _ _ i => rfl)).2.1 1 5 0 (by decide) (by decide)

/-- Witness for C3 at concrete inputs: both operands known non-null
(`Known = NotNull = true` literals), comparison atom `5` fresh; a model
exists in which the two non-null pointers compare unequal. -/
theorem transferNullCheckComparison_constraints_witness :
    ∃ w : Nat → Bool,
      (isNotNullF ⟨Formula.tru, Formula.tru⟩).eval w = true ∧
      (isNotNullF ⟨Formula.tru, Formula.tru⟩).eval w = true ∧
      (∀ f ∈ (transferNullCheckComparison CmpOpcode.BO_EQ (Formula.atom 5)
          ⟨Formula.tru, Formula.tru⟩ ⟨Formula.tru, Formula.tru⟩ []).drop
          (List.length ([] : List Formula)), f.eval w = true) ∧
      (pointerEqFormula CmpOpcode.BO_EQ (Formula.atom 5)).eval w = false :=
  (transferNullCheckComparison_constraints CmpOpcode.BO_EQ (Formula.atom 5)
    ⟨Formula.tru, Formula.tru⟩ ⟨Formula.tru, Formula.tru⟩ []).2.2
    5 (fun _ => true) false rfl (by simp [Formula.atomList])
    (by simp [Formula.atomList]) (by simp [Formula.atomList])
    (by simp [Formula.atomList]) rfl rfl
